import Mathlib

/-!
Shallow embedding of `src/graphing/findPricesAndTimestamps_BWORK.py`:
the ordered price-series store (`add_data_point`, `save_data`, `load_data`),
the target-time schedule (`is_target_time`, `get_target_timestamps_for_day`,
`get_missing_timestamps`), the block estimator
(`estimate_block_from_timestamp`) and the block refinement loop of
`collect_historical_data`, together with the monitoring-loop guard of `main`.

Timestamps and block numbers are Python `int`s, embedded as `Int`
(UTC epoch seconds; `datetime.fromtimestamp(_, tz=utc)` field extraction
becomes Euclidean `emod` arithmetic, which matches Python's floor mod for a
positive modulus).  Prices are Python floats that are only stored and moved
around by the functions below, never computed with, so they are embedded as
`Rat`.  The RPC chain reader is an explicit function argument; `None` stands
for a raised exception.
-/

namespace BWork

/-- `MAX_DATA_POINTS = 4 * 30`: 30 days worth of 4 daily intervals. -/
def MAX_DATA_POINTS : Nat := 4 * 30

/-- `TARGET_HOURS = [0, 6, 12, 18]`: midnight, 6am, noon, 6pm UTC. -/
def TARGET_HOURS : List Nat := [0, 6, 12, 18]

/-- `is_target_time(timestamp, tolerance_minutes=30)`: true when the
timestamp's UTC hour/minute is within tolerance of some target hour,
wrap-around at the day boundary handled by taking
`min raw (24*60 - raw)`. -/
def is_target_time (timestamp : Int) (tolerance_minutes : Nat := 30) : Bool :=
  let secs : Nat := (timestamp % 86400).toNat
  let hour : Nat := secs / 3600
  let minute : Nat := secs % 3600 / 60
  TARGET_HOURS.any fun target_hour =>
    let minutes_from_target : Nat :=
      ((hour * 60 + minute : Int) - (target_hour * 60 : Int)).natAbs
    decide (min minutes_from_target (24 * 60 - minutes_from_target) ≤ tolerance_minutes)

/-- Python `list.insert(pos, x)`: insert at an index, appending when the
index is at or beyond the end of the list. -/
def insertAt {α : Type} (pos : Nat) (x : α) : List α → List α
  | [] => [x]
  | y :: ys =>
    match pos with
    | 0 => x :: y :: ys
    | pos + 1 => y :: insertAt pos x ys

/-- The insertion-position search of `add_data_point`: the first index whose
timestamp is strictly greater than the new timestamp, else the length. -/
def find_insert_pos (new_timestamp : Int) : List Int → Nat
  | [] => 0
  | t :: ts => if new_timestamp < t then 0 else find_insert_pos new_timestamp ts + 1

/-- The common tail of `add_data_point`: insert the new observation into the
three parallel arrays at the position found from `timestamps`, then pop the
front of all three while the timestamp array is longer than
`MAX_DATA_POINTS`. -/
def add_point_core (timestamps blocks : List Int) (prices : List Rat)
    (new_timestamp new_block : Int) (new_price : Rat) :
    List Int × List Int × List Rat :=
  let pos := find_insert_pos new_timestamp timestamps
  let ts2 := insertAt pos new_timestamp timestamps
  let bs2 := insertAt pos new_block blocks
  let ps2 := insertAt pos new_price prices
  let k := ts2.length - MAX_DATA_POINTS
  (ts2.drop k, bs2.drop k, ps2.drop k)

/-- `add_data_point(timestamps, blocks, prices, new_timestamp, new_block,
new_price, is_target=False)`: when `is_target` is false, the series is
non-empty and the last stored timestamp is not itself a target time, that
last entry is popped from all three arrays first; then the new observation
is inserted in chronological order and the oldest entries are evicted while
the series exceeds `MAX_DATA_POINTS`. -/
def add_data_point (timestamps blocks : List Int) (prices : List Rat)
    (new_timestamp new_block : Int) (new_price : Rat)
    (is_target : Bool := false) : List Int × List Int × List Rat :=
  let removePrev : Bool :=
    !is_target &&
      (match timestamps.getLast? with
       | some last => !is_target_time last
       | none => false)
  if removePrev then
    add_point_core timestamps.dropLast blocks.dropLast prices.dropLast
      new_timestamp new_block new_price
  else
    add_point_core timestamps blocks prices new_timestamp new_block new_price

/-- The eviction scenario: `MAX_DATA_POINTS + 5` observations with strictly
increasing timestamps `0, 1, 2, ...` merged as canonical points into an
initially empty series. -/
def eviction_scenario : List Int × List Int × List Rat :=
  (List.range (MAX_DATA_POINTS + 5)).foldl
    (fun acc i => add_data_point acc.1 acc.2.1 acc.2.2 (i : Int) (i : Int) (i : Rat) true)
    ([], [], [])

/-- The non-canonical replace scenario: merge a non-canonical observation at
`t1`, then a non-canonical one at `t2`, then a canonical one at `t3`, into
an initially empty series (blocks/prices 1, 2, 3 in order). -/
def replace_scenario_steps (t1 t2 t3 : Int) : List Int × List Int × List Rat :=
  let s1 := add_data_point [] [] [] t1 1 1 false
  let s2 := add_data_point s1.1 s1.2.1 s1.2.2 t2 2 2 false
  add_data_point s2.1 s2.2.1 s2.2.2 t3 3 3 true

/-- `get_target_timestamps_for_day(day_timestamp)`: the four target epoch
timestamps of the UTC day containing `day_timestamp` (start of day plus each
target hour). -/
def get_target_timestamps_for_day (day_timestamp : Int) : List Int :=
  let start_of_day := day_timestamp - day_timestamp % 86400
  TARGET_HOURS.map fun hour => start_of_day + (hour : Int) * 3600

/-- The collection phase of `get_missing_timestamps`: for each of the last
`target_days` days, the day's target timestamps that are strictly before
`current_timestamp`, not already present, and not within 30 minutes of any
existing timestamp, in day-by-day collection order (before sorting). -/
def missing_candidates (timestamps : List Int) (current_timestamp : Int)
    (target_days : Nat) : List Int :=
  (List.range target_days).flatMap fun days_back =>
    (get_target_timestamps_for_day (current_timestamp - (days_back : Int) * 86400)).filter
      fun target_ts =>
        decide (target_ts < current_timestamp) &&
        !(timestamps.contains target_ts) &&
        !(timestamps.any fun existing_ts =>
            decide ((existing_ts - target_ts).natAbs < 30 * 60))

/-- `get_missing_timestamps(timestamps, current_timestamp, target_days=30)`
returns the collected candidates sorted chronologically
(`missing_timestamps.sort()`). -/
def get_missing_timestamps (timestamps : List Int) (current_timestamp : Int)
    (target_days : Nat := 30) : List Int :=
  (missing_candidates timestamps current_timestamp target_days).mergeSort

/-- Python `int(_)` on a (here exact, rational-valued) float: truncation
toward zero. -/
def truncToInt (q : Rat) : Int := q.num.tdiv (q.den : Int)

/-- `estimate_block_from_timestamp(target_timestamp, current_block,
current_timestamp)`.  The chain reader `w3.eth.get_block(b)["timestamp"]`
is the explicit argument `getBlockTs`; `none` models a raised exception, in
which case the `except` branch estimates with the fixed 2 seconds per
block.  Otherwise the empirical seconds-per-block over the ~24h reference
window is used when both the elapsed block count and elapsed time are
positive, with fallback 2.0 when not. -/
def estimate_block_from_timestamp (getBlockTs : Int → Option Int)
    (target_timestamp current_block current_timestamp : Int) : Int :=
  let blocks_24h_ago_estimate : Int := 43200
  let sample_block_24h_ago : Int := max 1 (current_block - blocks_24h_ago_estimate)
  match getBlockTs sample_block_24h_ago with
  | some sample_timestamp_24h_ago =>
    let actual_time_diff := current_timestamp - sample_timestamp_24h_ago
    let actual_block_diff := current_block - sample_block_24h_ago
    let seconds_per_block : Rat :=
      if 0 < actual_block_diff ∧ 0 < actual_time_diff then
        (actual_time_diff : Rat) / (actual_block_diff : Rat)
      else 2
    let time_diff := current_timestamp - target_timestamp
    let blocks_diff := truncToInt ((time_diff : Rat) / seconds_per_block)
    max 1 (current_block - blocks_diff)
  | none =>
    let time_diff := current_timestamp - target_timestamp
    let blocks_diff := truncToInt ((time_diff : Rat) / 2)
    max 1 (current_block - blocks_diff)

/-- The specification's estimate formula, amended only where the code
forces it: `max 1 (currentBlock − trunc((currentTimestamp −
targetTimestamp) / secondsPerBlock))` with truncation toward zero (the
code's `int()`) in place of the claimed `round`, and with the fixed 2.0
seconds per block used when the reference lookup fails or either the
elapsed block count or the elapsed time is non-positive. -/
def estimate_block_spec (getBlockTs : Int → Option Int)
    (target_timestamp current_block current_timestamp : Int) : Int :=
  let sample_block : Int := max 1 (current_block - 43200)
  let seconds_per_block : Rat :=
    match getBlockTs sample_block with
    | none => 2
    | some sample_ts =>
      if 0 < current_block - sample_block ∧ 0 < current_timestamp - sample_ts then
        ((current_timestamp - sample_ts : Int) : Rat) /
          ((current_block - sample_block : Int) : Rat)
      else 2
  max 1 (current_block -
    truncToInt (((current_timestamp - target_timestamp : Int) : Rat) / seconds_per_block))

/-- One adjustment of the refinement loop in `collect_historical_data`:
move the estimated block by `int(|actual - target| / 2)` blocks in the
direction that reduces the timestamp gap. -/
def refine_step (target_timestamp actual_timestamp estimated_block : Int) : Int :=
  if actual_timestamp < target_timestamp then
    estimated_block + (((target_timestamp - actual_timestamp).toNat / 2 : Nat) : Int)
  else
    estimated_block - (((actual_timestamp - target_timestamp).toNat / 2 : Nat) : Int)

/-- The refinement loop of `collect_historical_data` with its remaining
iteration budget made explicit: while the actual timestamp is more than 30
minutes from the target and attempts remain, adjust the block and re-read
its timestamp. -/
def refine_aux (getTs : Int → Int) (target_timestamp : Int) :
    Nat → Int → Int → Int × Int
  | 0, estimated_block, actual_timestamp => (estimated_block, actual_timestamp)
  | fuel + 1, estimated_block, actual_timestamp =>
    if 30 * 60 < (actual_timestamp - target_timestamp).natAbs then
      let e2 := refine_step target_timestamp actual_timestamp estimated_block
      refine_aux getTs target_timestamp fuel e2 (getTs e2)
    else (estimated_block, actual_timestamp)

/-- Block refinement as performed for one missing timestamp in
`collect_historical_data`: read the estimated block's timestamp, then run
the adjustment loop for at most 10 attempts.  Returns the final
(block, actual timestamp) pair. -/
def refine_block (getTs : Int → Int) (target_timestamp estimated_block : Int) :
    Int × Int :=
  refine_aux getTs target_timestamp 10 estimated_block (getTs estimated_block)

/-- The insertion-position search used for historical backfill in
`collect_historical_data` (count of leading entries strictly older than the
actual timestamp, stopping at the first that is not). -/
def hist_insert_pos (actual_timestamp : Int) : List Int → Nat
  | [] => 0
  | t :: ts =>
    if actual_timestamp > t then hist_insert_pos actual_timestamp ts + 1 else 0

/-- The historical insertion of `collect_historical_data`: insert the
resolved observation into the three parallel arrays at the position found
from `timestamps` (no eviction happens in this code path). -/
def hist_insert (timestamps blocks : List Int) (prices : List Rat)
    (actual_timestamp estimated_block : Int) (price : Rat) :
    List Int × List Int × List Rat :=
  let pos := hist_insert_pos actual_timestamp timestamps
  (insertAt pos actual_timestamp timestamps,
   insertAt pos estimated_block blocks,
   insertAt pos price prices)

/-- The JSON document written by `save_data` and read by `load_data`; each
key may be absent (`json.load` + `dict.get` with a default). -/
structure StoredData where
  timestamps : Option (List Int)
  blocks : Option (List Int)
  prices : Option (List Rat)
  last_updated : Option Rat

/-- The state of the data file as seen by `load_data`: absent, present but
unreadable/corrupt (any exception while reading or parsing), or a
well-formed document. -/
inductive FileState where
  | absent
  | corrupt
  | wellFormed (d : StoredData)

/-- `load_data()`: empty arrays when the file is absent or any exception is
raised while reading it; otherwise the stored arrays with `[]` defaults for
missing keys. -/
def load_data : FileState → List Int × List Int × List Rat
  | .absent => ([], [], [])
  | .corrupt => ([], [], [])
  | .wellFormed d => (d.timestamps.getD [], d.blocks.getD [], d.prices.getD [])

/-- `save_data(timestamps, blocks, prices)`: the single JSON document
written, holding the three arrays and the `last_updated` epoch (the wall
clock `time.time()` is the explicit argument `now`). -/
def save_data (timestamps blocks : List Int) (prices : List Rat) (now : Rat) :
    StoredData :=
  ⟨some timestamps, some blocks, some prices, some now⟩

/-- The current-sample step of the monitoring loop in `main`: compute
whether the current timestamp is a target time, skip adding when the series
is non-empty and the current timestamp is less than 4 minutes past the last
stored one, otherwise add the current observation via `add_data_point`. -/
def monitoring_add_current (timestamps blocks : List Int) (prices : List Rat)
    (current_timestamp current_block : Int) (current_price : Rat) :
    List Int × List Int × List Rat :=
  let is_current_target := is_target_time current_timestamp
  let should_add_current : Bool :=
    match timestamps.getLast? with
    | some last => !decide (current_timestamp - last < 4 * 60)
    | none => true
  if should_add_current then
    add_data_point timestamps blocks prices current_timestamp current_block
      current_price is_current_target
  else
    (timestamps, blocks, prices)

/-! ### Generic lemmas about the embedded list operations -/

theorem length_insertAt {α : Type} (pos : Nat) (x : α) (l : List α) :
    (insertAt pos x l).length = l.length + 1 := by
  induction l generalizing pos with
  | nil => simp [insertAt]
  | cons y ys ih =>
    cases pos with
    | zero => simp [insertAt]
    | succ p => simp [insertAt, ih]

theorem mem_insertAt {α : Type} (pos : Nat) (x a : α) (l : List α) :
    a ∈ insertAt pos x l ↔ a = x ∨ a ∈ l := by
  induction l generalizing pos with
  | nil => simp [insertAt]
  | cons y ys ih =>
    cases pos with
    | zero => simp [insertAt]
    | succ p =>
      simp only [insertAt, List.mem_cons, ih]
      tauto

theorem count_insertAt (pos : Nat) (x : Int) (l : List Int) :
    (insertAt pos x l).count x = l.count x + 1 := by
  induction l generalizing pos with
  | nil => simp [insertAt]
  | cons y ys ih =>
    cases pos with
    | zero => simp [insertAt, List.count_cons]
    | succ p =>
      simp only [insertAt, List.count_cons, ih]
      omega

theorem pairwise_insertAt_find (x : Int) (l : List Int)
    (h : l.Pairwise (· ≤ ·)) :
    (insertAt (find_insert_pos x l) x l).Pairwise (· ≤ ·) := by
  induction l with
  | nil => simp [insertAt, find_insert_pos]
  | cons t ts ih =>
    rw [find_insert_pos]
    rcases List.pairwise_cons.1 h with ⟨ht, hts⟩
    by_cases hx : x < t
    · simp only [if_pos hx, insertAt]
      refine List.pairwise_cons.2 ⟨?_, h⟩
      intro b hb
      rcases List.mem_cons.1 hb with rfl | hbts
      · exact le_of_lt hx
      · exact le_trans (le_of_lt hx) (ht b hbts)
    · simp only [if_neg hx, insertAt]
      refine List.pairwise_cons.2 ⟨?_, ih hts⟩
      intro b hb
      rcases (mem_insertAt _ _ _ _).1 hb with rfl | hbts
      · exact le_of_not_lt hx
      · exact ht b hbts

theorem add_data_point_eq_core_or_dropLast (timestamps blocks : List Int)
    (prices : List Rat) (nt nb : Int) (np : Rat) (tgt : Bool) :
    add_data_point timestamps blocks prices nt nb np tgt =
        add_point_core timestamps blocks prices nt nb np ∨
      add_data_point timestamps blocks prices nt nb np tgt =
        add_point_core timestamps.dropLast blocks.dropLast prices.dropLast
          nt nb np := by
  simp only [add_data_point]
  split
  · right
    rfl
  · left
    rfl

theorem add_point_core_length_eq (timestamps blocks : List Int) (prices : List Rat)
    (nt nb : Int) (np : Rat)
    (h1 : timestamps.length = blocks.length)
    (h2 : blocks.length = prices.length) :
    (add_point_core timestamps blocks prices nt nb np).1.length =
        (add_point_core timestamps blocks prices nt nb np).2.1.length ∧
      (add_point_core timestamps blocks prices nt nb np).2.1.length =
        (add_point_core timestamps blocks prices nt nb np).2.2.length := by
  simp only [add_point_core, List.length_drop, length_insertAt]
  omega

theorem add_point_core_sorted_bounded (timestamps blocks : List Int) (prices : List Rat)
    (nt nb : Int) (np : Rat)
    (hsorted : timestamps.Pairwise (· ≤ ·))
    (hlen : timestamps.length ≤ MAX_DATA_POINTS) :
    (add_point_core timestamps blocks prices nt nb np).1.Pairwise (· ≤ ·) ∧
      (add_point_core timestamps blocks prices nt nb np).1.length ≤ MAX_DATA_POINTS := by
  simp only [add_point_core]
  constructor
  · exact List.Pairwise.sublist (List.drop_sublist _ _)
      (pairwise_insertAt_find nt timestamps hsorted)
  · rw [List.length_drop, length_insertAt]
    omega

/-! ### Claim theorems -/

/-- C1 counterexample: merging timestamp 100 with `is_target=true` into a
series that already holds an entry with timestamp 100 leaves two entries
with that timestamp, not one, refuting idempotence and replace-on-equality
of the merge. -/
theorem add_data_point_equal_timestamp_duplicates_cex :
    (add_data_point [100] [1] [1] 100 2 2 true).1 = [100, 100] ∧
      (add_data_point [100] [1] [1] 100 2 2 true).1.count 100 ≠ 1 := by
  constructor
  · decide
  · decide

/-- C1 amended: `add_data_point` with `is_target=true` never replaces an
equal-timestamp entry: while the series is below the retention bound,
merging a timestamp inserts the new observation after all existing entries
with an equal or smaller timestamp and increases the number of entries
carrying that timestamp by one, so identical-timestamp canonical merges
accumulate duplicates instead of being idempotent. -/
theorem add_data_point_canonical_equal_timestamp_keeps_both
    (timestamps blocks : List Int) (prices : List Rat) (nt nb : Int) (np : Rat)
    (hlen : timestamps.length < MAX_DATA_POINTS) :
    (add_data_point timestamps blocks prices nt nb np true).1.count nt =
      timestamps.count nt + 1 := by
  have hk : (insertAt (find_insert_pos nt timestamps) nt timestamps).length -
      MAX_DATA_POINTS = 0 := by
    rw [length_insertAt]
    omega
  simp only [add_data_point, add_point_core, Bool.not_true, Bool.false_and,
    Bool.false_eq_true, if_false, hk, List.drop_zero]
  exact count_insertAt _ _ _

theorem add_data_point_canonical_equal_timestamp_keeps_both_witness :
    [(100 : Int)].length < MAX_DATA_POINTS ∧
      (add_data_point [100] [1] [1] 100 7 7 true).1.count 100 =
        List.count 100 [(100 : Int)] + 1 :=
  ⟨by decide,
   add_data_point_canonical_equal_timestamp_keeps_both [100] [1] [1] 100 7 7
     (by decide)⟩

/-- C2 counterexample: at the literal instants of the claimed scenario the
previous entry is never removed, because epoch timestamps 100 and 105 are
within 30 minutes of the 00:00 UTC target and therefore count as target
times; merging non-canonical points at t=100 and t=105 and a canonical
point at t=110 leaves all three entries, not just the last two. -/
theorem noncanonical_replace_literal_times_cex :
    (replace_scenario_steps 100 105 110).1 = [100, 105, 110] ∧
      (replace_scenario_steps 100 105 110).1 ≠ [105, 110] := by
  constructor
  · decide
  · decide

/-- C2 amended: when `add_data_point` is called with `is_target=false` on a
non-empty series whose last entry's timestamp is not a target time, that
last entry is removed from all three arrays before the new observation is
inserted; a last entry whose timestamp is a target time is never removed by
this rule.  The scenario holds at instants away from the canonical hours:
merging non-canonical P1 at t=10000, then non-canonical P2 at t=10005, then
canonical P3 at t=21600 leaves exactly P2 and P3 (at the claim's literal
t=100/105/110 the entries count as target-time and all three are kept). -/
theorem add_data_point_noncanonical_replace
    (timestamps blocks : List Int) (prices : List Rat) (nt nb : Int) (np : Rat)
    (last : Int) (hlast : timestamps.getLast? = some last) :
    (is_target_time last = false →
      add_data_point timestamps blocks prices nt nb np false =
        add_point_core timestamps.dropLast blocks.dropLast prices.dropLast
          nt nb np) ∧
    (is_target_time last = true →
      add_data_point timestamps blocks prices nt nb np false =
        add_point_core timestamps blocks prices nt nb np) ∧
    (replace_scenario_steps 10000 10005 21600).1 = [10005, 21600] := by
  refine ⟨fun hfalse => ?_, fun htrue => ?_, by decide⟩
  · simp [add_data_point, hlast, hfalse]
  · simp [add_data_point, hlast, htrue]

theorem add_data_point_noncanonical_replace_witness :
    ([(10000 : Int)].getLast? = some 10000 ∧ is_target_time 10000 = false) ∧
      add_data_point [10000] [1] [1] 10005 2 2 false =
        add_point_core (List.dropLast [(10000 : Int)]) (List.dropLast [(1 : Int)])
          (List.dropLast [(1 : Rat)]) 10005 2 2 :=
  ⟨⟨by decide, by decide⟩,
   (add_data_point_noncanonical_replace [10000] [1] [1] 10005 2 2 10000
      (by decide)).1 (by decide)⟩

/-- C8: `load_data` is total and never fails: it returns the empty series
when the data file is absent or unreadable/corrupt, and the stored
timestamp, block and price arrays for every well-formed stored file. -/
theorem load_data_total_spec :
    load_data .absent = ([], [], []) ∧
    load_data .corrupt = ([], [], []) ∧
    ∀ (timestamps blocks : List Int) (prices : List Rat) (lu : Option Rat),
      load_data (.wellFormed ⟨some timestamps, some blocks, some prices, lu⟩) =
        (timestamps, blocks, prices) :=
  ⟨rfl, rfl, fun _ _ _ _ => rfl⟩

/-- C9: every series-mutating operation (`add_data_point` and the
historical insertion of `collect_historical_data`) keeps the three parallel
arrays equal in length (hence index-aligned), and `save_data` writes the
three arrays together with the last-updated epoch in one document, which
`load_data` reads back unchanged. -/
theorem series_alignment_invariant :
    (∀ (timestamps blocks : List Int) (prices : List Rat)
        (nt nb : Int) (np : Rat) (tgt : Bool),
      timestamps.length = blocks.length → blocks.length = prices.length →
      (add_data_point timestamps blocks prices nt nb np tgt).1.length =
          (add_data_point timestamps blocks prices nt nb np tgt).2.1.length ∧
        (add_data_point timestamps blocks prices nt nb np tgt).2.1.length =
          (add_data_point timestamps blocks prices nt nb np tgt).2.2.length) ∧
    (∀ (timestamps blocks : List Int) (prices : List Rat)
        (ats eb : Int) (p : Rat),
      timestamps.length = blocks.length → blocks.length = prices.length →
      (hist_insert timestamps blocks prices ats eb p).1.length =
          (hist_insert timestamps blocks prices ats eb p).2.1.length ∧
        (hist_insert timestamps blocks prices ats eb p).2.1.length =
          (hist_insert timestamps blocks prices ats eb p).2.2.length) ∧
    (∀ (timestamps blocks : List Int) (prices : List Rat) (now : Rat),
      save_data timestamps blocks prices now =
          ⟨some timestamps, some blocks, some prices, some now⟩ ∧
        load_data (.wellFormed (save_data timestamps blocks prices now)) =
          (timestamps, blocks, prices)) := by
  refine ⟨fun ts bs ps nt nb np tgt h1 h2 => ?_,
    fun ts bs ps ats eb p h1 h2 => ?_, fun ts bs ps now => ⟨rfl, rfl⟩⟩
  · rcases add_data_point_eq_core_or_dropLast ts bs ps nt nb np tgt with he | he
    · rw [he]
      exact add_point_core_length_eq _ _ _ _ _ _ h1 h2
    · rw [he]
      exact add_point_core_length_eq _ _ _ _ _ _
        (by simp only [List.length_dropLast]; omega)
        (by simp only [List.length_dropLast]; omega)
  · simp only [hist_insert, length_insertAt]
    omega

theorem series_alignment_invariant_witness :
    ([(0 : Int)].length = [(5 : Int)].length ∧
        [(5 : Int)].length = [(1 : Rat)].length) ∧
      (add_data_point [0] [5] [1] 90000 6 2 true).1.length =
          (add_data_point [0] [5] [1] 90000 6 2 true).2.1.length ∧
        (add_data_point [0] [5] [1] 90000 6 2 true).2.1.length =
          (add_data_point [0] [5] [1] 90000 6 2 true).2.2.length :=
  ⟨⟨by decide, by decide⟩,
   series_alignment_invariant.1 [0] [5] [1] 90000 6 2 true (by decide) (by decide)⟩

/-- C10: in each monitoring-loop step with a non-empty stored series, the
current-block sample is added exactly when the current timestamp is at
least 4 minutes (240 seconds) past the last stored timestamp; when it is
closer, the step leaves the series unchanged. -/
theorem monitoring_four_minute_guard
    (timestamps blocks : List Int) (prices : List Rat)
    (current_timestamp current_block : Int) (current_price : Rat)
    (last : Int) (hlast : timestamps.getLast? = some last) :
    (current_timestamp - last < 240 →
      monitoring_add_current timestamps blocks prices current_timestamp
        current_block current_price = (timestamps, blocks, prices)) ∧
    (240 ≤ current_timestamp - last →
      monitoring_add_current timestamps blocks prices current_timestamp
        current_block current_price =
        add_data_point timestamps blocks prices current_timestamp
          current_block current_price (is_target_time current_timestamp)) := by
  constructor
  · intro h
    simp only [monitoring_add_current, hlast]
    rw [if_neg]
    simp only [Bool.not_eq_true, Bool.not_eq_false', decide_eq_true_eq]
    omega
  · intro h
    simp only [monitoring_add_current, hlast]
    rw [if_pos]
    simp only [Bool.not_eq_true', decide_eq_false_iff_not]
    omega

theorem monitoring_four_minute_guard_witness :
    ([(0 : Int)].getLast? = some 0 ∧ (100 : Int) - 0 < 240) ∧
      monitoring_add_current [0] [5] [1] 100 6 2 = ([0], [5], [1]) :=
  ⟨⟨by decide, by decide⟩,
   (monitoring_four_minute_guard [0] [5] [1] 100 6 2 0 (by decide)).1 (by decide)⟩

set_option maxRecDepth 10000 in
/-- C3: for every input series sorted non-decreasing by timestamp with at
most `MAX_DATA_POINTS` entries, `add_data_point` returns a series again
sorted non-decreasing with at most `MAX_DATA_POINTS` entries (oldest
evicted from the front); and merging `MAX_DATA_POINTS + 5` strictly
increasing canonical observations into an empty series leaves exactly the
most recent `MAX_DATA_POINTS` of them in order. -/
theorem add_data_point_sorted_bounded_and_eviction :
    (∀ (timestamps blocks : List Int) (prices : List Rat)
        (nt nb : Int) (np : Rat) (tgt : Bool),
      timestamps.Pairwise (· ≤ ·) → timestamps.length ≤ MAX_DATA_POINTS →
      (add_data_point timestamps blocks prices nt nb np tgt).1.Pairwise (· ≤ ·) ∧
        (add_data_point timestamps blocks prices nt nb np tgt).1.length ≤
          MAX_DATA_POINTS) ∧
    eviction_scenario.1 = (List.range' 5 MAX_DATA_POINTS).map (fun n => (n : Int)) := by
  constructor
  · intro ts bs ps nt nb np tgt hs hl
    rcases add_data_point_eq_core_or_dropLast ts bs ps nt nb np tgt with he | he
    · rw [he]
      exact add_point_core_sorted_bounded _ _ _ _ _ _ hs hl
    · rw [he]
      exact add_point_core_sorted_bounded _ _ _ _ _ _
        (List.Pairwise.sublist (List.dropLast_sublist _) hs)
        (by simp only [List.length_dropLast]; omega)
  · decide

theorem add_data_point_sorted_bounded_and_eviction_witness :
    (List.Pairwise (· ≤ ·) [(0 : Int), 3] ∧ [(0 : Int), 3].length ≤ MAX_DATA_POINTS) ∧
      (add_data_point [0, 3] [1, 2] [1, 2] 2 9 9 true).1.Pairwise (· ≤ ·) ∧
        (add_data_point [0, 3] [1, 2] [1, 2] 2 9 9 true).1.length ≤ MAX_DATA_POINTS :=
  ⟨⟨by decide, by decide⟩,
   add_data_point_sorted_bounded_and_eviction.1 [0, 3] [1, 2] [1, 2] 2 9 9 true
     (by decide) (by decide)⟩

/-- C5: `is_target_time` handles day-boundary wrap-around: the distance to
each canonical hour is taken modulo 24 hours, so every timestamp whose UTC
time-of-day is 23:50 is classified canonical with the default 30-minute
tolerance (distance 10 minutes to the 00:00 target, not 1430), and the
classification is periodic with period one day. -/
theorem is_target_time_wraparound :
    (∀ t : Int, t % 86400 = 85800 → is_target_time t 30 = true) ∧
    (∀ (t : Int) (tol : Nat), is_target_time (t + 86400) tol = is_target_time t tol) := by
  constructor
  · intro t ht
    simp only [is_target_time, ht]
    decide
  · intro t tol
    have h : (t + 86400) % 86400 = t % 86400 := by
      simp
    simp only [is_target_time, h]

theorem is_target_time_wraparound_witness :
    (85800 : Int) % 86400 = 85800 ∧ is_target_time 85800 30 = true :=
  ⟨by decide, is_target_time_wraparound.1 85800 (by decide)⟩

unseal Rat.mul Rat.inv in
/-- C6 counterexample: with the reference-block lookup failing (so the 2.0
fallback applies), current block 100, current timestamp 3 and target 0, the
code computes `max 1 (100 − int(3/2)) = 99`, while the claimed formula
`max 1 (100 − round(3/2))` gives 98: the code truncates the block
difference toward zero instead of rounding it. -/
theorem estimate_block_round_cex :
    estimate_block_from_timestamp (fun _ => none) 0 100 3 = 99 ∧
      max 1 (100 - round ((3 : Rat) / 2)) = 98 ∧
      estimate_block_from_timestamp (fun _ => none) 0 100 3 ≠
        max 1 (100 - round ((3 : Rat) / 2)) := by
  have hr : round ((3 : Rat) / 2) = 2 := by
    rw [round_eq]
    norm_num
  have hc : estimate_block_from_timestamp (fun _ => none) 0 100 3 = 99 := by
    decide
  refine ⟨hc, by rw [hr]; decide, ?_⟩
  rw [hc, hr]
  decide

/-- C6 amended: `estimate_block_from_timestamp` equals
`max 1 (currentBlock − trunc((currentTimestamp − targetTimestamp) /
secondsPerBlock))` — truncation toward zero (Python `int()`), not `round` —
where `secondsPerBlock` is the elapsed time over the elapsed block count
against the ~24h-earlier reference block, and the fixed default 2.0 when
the reference lookup fails or either elapsed quantity is non-positive; the
result is always at least 1. -/
theorem estimate_block_refines_spec (getBlockTs : Int → Option Int)
    (target_timestamp current_block current_timestamp : Int) :
    estimate_block_from_timestamp getBlockTs target_timestamp current_block
        current_timestamp =
      estimate_block_spec getBlockTs target_timestamp current_block
        current_timestamp ∧
      1 ≤ estimate_block_from_timestamp getBlockTs target_timestamp
        current_block current_timestamp := by
  constructor
  · rcases h : getBlockTs (max 1 (current_block - 43200)) with _ | sts <;>
      simp [estimate_block_from_timestamp, estimate_block_spec, h]
  · rcases h : getBlockTs (max 1 (current_block - 43200)) with _ | sts <;>
      simp only [estimate_block_from_timestamp, h] <;>
      exact le_max_left _ _

unseal Rat.mul Rat.inv in
/-- C7 counterexample: with target 0 and a chain reader whose estimated
block 100 reads timestamp 3603 (gap 3603 s > 1800 s, odd), the loop moves
the estimate down by `int(3603/2) = 1801` blocks to −1701; the claimed
adjustment `round(3603/2) = 1802` would give −1702. -/
theorem refine_loop_round_cex :
    refine_block (fun b => if b = 100 then 3603 else 0) 0 100 = (-1701, 0) ∧
      100 - round ((3603 : Rat) / 2) = -1702 ∧
      (refine_block (fun b => if b = 100 then 3603 else 0) 0 100).1 ≠
        100 - round ((3603 : Rat) / 2) := by
  have hr : round ((3603 : Rat) / 2) = 1802 := by
    rw [round_eq]
    norm_num
  have hc : refine_block (fun b => if b = 100 then 3603 else 0) 0 100 =
      (-1701, 0) := by
    decide
  refine ⟨hc, by rw [hr]; decide, ?_⟩
  rw [hc, hr]
  decide

unseal Rat.mul Rat.inv in
/-- C7 amended: the refinement loop stops as soon as the read timestamp is
within 30 minutes of the target, otherwise adjusts the estimated block by
`int(|actual − target| / 2)` blocks (truncating division, not `round`) in
the direction that reduces the gap, performing at most 10 adjustments; and
against the synthetic constant 2 s/block chain with current block 1000 and
current timestamp 2000, resolving target 1900 starts from estimate 950 and
terminates within the iteration budget with a block whose synthetic
timestamp (1900) is within tolerance of the target. -/
theorem refine_loop_spec_and_convergence :
    (∀ (getTs : Int → Int) (target est actual : Int) (fuel : Nat),
      (actual - target).natAbs ≤ 30 * 60 →
      refine_aux getTs target fuel est actual = (est, actual)) ∧
    (∀ (getTs : Int → Int) (target est actual : Int) (fuel : Nat),
      30 * 60 < (actual - target).natAbs →
      refine_aux getTs target (fuel + 1) est actual =
        refine_aux getTs target fuel (refine_step target actual est)
          (getTs (refine_step target actual est))) ∧
    (∀ target actual est : Int, actual < target →
      refine_step target actual est =
        est + (((target - actual).toNat / 2 : Nat) : Int)) ∧
    (∀ target actual est : Int, target ≤ actual →
      refine_step target actual est =
        est - (((actual - target).toNat / 2 : Nat) : Int)) ∧
    (estimate_block_from_timestamp (fun b => some (2 * b)) 1900 1000 2000 = 950 ∧
      refine_block (fun b => 2 * b) 1900 950 = (950, 1900) ∧
      ((2 * 950 : Int) - 1900).natAbs ≤ 30 * 60) := by
  refine ⟨fun getTs target est actual fuel h => ?_,
    fun getTs target est actual fuel h => ?_,
    fun target actual est h => ?_, fun target actual est h => ?_,
    by decide, by decide, by decide⟩
  · cases fuel with
    | zero => rfl
    | succ f =>
      rw [refine_aux, if_neg]
      omega
  · rw [refine_aux, if_pos h]
  · rw [refine_step, if_pos h]
  · rw [refine_step, if_neg (not_lt.2 h)]

theorem refine_loop_spec_and_convergence_witness :
    ((0 : Int) - 0).natAbs ≤ 30 * 60 ∧
      refine_aux (fun b => 2 * b) 0 3 5 0 = (5, 0) :=
  ⟨by decide,
   refine_loop_spec_and_convergence.1 (fun b => 2 * b) 0 5 0 3 (by decide)⟩

theorem targets_day_bounds {D t : Int} (h : t ∈ get_target_timestamps_for_day D) :
    D - D % 86400 ≤ t ∧ t ≤ D - D % 86400 + 64800 := by
  simp only [get_target_timestamps_for_day, List.mem_map] at h
  rcases h with ⟨hr, hmem, rfl⟩
  have hcases : hr = 0 ∨ hr = 6 ∨ hr = 12 ∨ hr = 18 := by
    simpa [TARGET_HOURS] using hmem
  rcases hcases with rfl | rfl | rfl | rfl <;> constructor <;> omega

theorem nodup_targets_day (D : Int) : (get_target_timestamps_for_day D).Nodup := by
  simp [get_target_timestamps_for_day, TARGET_HOURS]

theorem day_start_shift (current : Int) (d : Nat) :
    (current - (d : Int) * 86400) - (current - (d : Int) * 86400) % 86400 =
      (current - current % 86400) - (d : Int) * 86400 := by
  omega

theorem nodup_missing_candidates (timestamps : List Int) (current : Int)
    (n : Nat) : (missing_candidates timestamps current n).Nodup := by
  unfold missing_candidates
  rw [List.nodup_flatMap]
  constructor
  · intro d _
    exact List.Nodup.filter _ (nodup_targets_day _)
  · refine (List.pairwise_lt_range n).imp ?_
    intro d d' hdd' a ha ha'
    have h1 := targets_day_bounds (List.mem_of_mem_filter ha)
    have h2 := targets_day_bounds (List.mem_of_mem_filter ha')
    rw [day_start_shift] at h1 h2
    omega

theorem missing_sorted_le (timestamps : List Int) (current : Int) (n : Nat) :
    (get_missing_timestamps timestamps current n).Pairwise (· ≤ ·) :=
  List.sorted_mergeSort' _

theorem missing_nodup (timestamps : List Int) (current : Int) (n : Nat) :
    (get_missing_timestamps timestamps current n).Nodup :=
  (List.mergeSort_perm _ _).nodup_iff.mpr
    (nodup_missing_candidates timestamps current n)

/-- C4: every timestamp returned by `get_missing_timestamps` is a canonical
target instant of one of the `target_days` lookback days, is strictly
before the current time, and is at least 30 minutes away from every
existing observation's timestamp; and the returned list is strictly
ascending (oldest first). -/
theorem get_missing_timestamps_spec (timestamps : List Int)
    (current_timestamp : Int) (target_days : Nat) :
    (∀ t ∈ get_missing_timestamps timestamps current_timestamp target_days,
      t < current_timestamp ∧
      (∀ e ∈ timestamps, 30 * 60 ≤ (e - t).natAbs) ∧
      ∃ d < target_days,
        t ∈ get_target_timestamps_for_day
          (current_timestamp - (d : Int) * 86400)) ∧
    (get_missing_timestamps timestamps current_timestamp target_days).Pairwise
      (· < ·) := by
  constructor
  · intro t ht
    rw [get_missing_timestamps, List.mem_mergeSort, missing_candidates] at ht
    rcases List.mem_flatMap.1 ht with ⟨d, hd, hmem⟩
    rw [List.mem_filter] at hmem
    rcases hmem with ⟨htarg, hcond⟩
    simp only [Bool.and_eq_true, decide_eq_true_eq, Bool.not_eq_true',
      List.any_eq_false, decide_eq_false_iff_not, not_lt] at hcond
    exact ⟨hcond.1.1, hcond.2, d, List.mem_range.1 hd, htarg⟩
  · exact ((missing_sorted_le timestamps current_timestamp target_days).and
      (missing_nodup timestamps current_timestamp target_days)).imp
      fun h => lt_of_le_of_ne h.1 h.2

theorem get_missing_timestamps_spec_witness :
    (86400 : Int) ∈ get_missing_timestamps [] 90000 1 ∧
      (86400 : Int) < 90000 ∧
      (∀ e ∈ ([] : List Int), 30 * 60 ≤ (e - 86400).natAbs) ∧
      ∃ d : Nat, d < 1 ∧ (86400 : Int) ∈ get_target_timestamps_for_day
        (90000 - (d : Int) * 86400) := by
  have hmem : (86400 : Int) ∈ get_missing_timestamps [] 90000 1 :=
    List.mem_mergeSort.mpr (by decide)
  exact ⟨hmem, (get_missing_timestamps_spec [] 90000 1).1 86400 hmem⟩

end BWork
